import Mathlib

/-!
# Verification of `qiime/filter.py`

Shallow embedding of the filtering module of the QIIME repository
(`qiime/filter.py`) and proofs about its behaviour.

Modelling conventions:
* Python strings are `String`, rows of a mapping file are `List String`,
  a mapping file body is `List (List String)`.
* `seq_id.split()[0]` (which raises `IndexError` on a whitespace-only
  string) is modelled by `firstToken? : String → Option String`.
* Fallible functions return `Option`/`Except`; the error payloads carry the
  Python exception message.
* Python's `zip(*rows)` (transposition truncating to the shortest row) is
  `pyZip`; `len(set(l))` is `setSize`.
* Cell accesses `row[j]` are modelled with `List.getD row j ""`; theorems
  carry the table invariant (every row has header length) under which this
  agrees with Python's checked indexing.
-/

set_option autoImplicit false

namespace QiimeFilter

/-- Python `s.split()[0]`: the first whitespace-delimited token of `s`, or
`none` when `s` is empty or all whitespace (Python raises `IndexError`). -/
def firstToken? (s : String) : Option String :=
  match s.data.dropWhile Char.isWhitespace with
  | [] => none
  | c :: cs => some (String.mk ((c :: cs).takeWhile (fun d => !(d.isWhitespace))))

/-- Evaluate `f` on every element, failing when any evaluation fails
(a Python list comprehension whose body may raise). -/
def tryMapList {α β : Type} (f : α → Option β) : List α → Option (List β)
  | [] => some []
  | a :: as =>
    match f a, tryMapList f as with
    | some b, some bs => some (b :: bs)
    | _, _ => none

/-- The `keep_seq` predicate built inside `filter_fasta`
(`qiime/filter.py` lines 58-66): the lookup is the set of first tokens of
`seqs_to_keep`; with `negate = false` a record is kept iff the first token
of its identifier is in the lookup, with `negate = true` iff it is not.
`none` models the `IndexError` raised while normalising. -/
def keep_seq (seqs_to_keep : List String) (negate : Bool) (seq_id : String) :
    Option Bool :=
  match tryMapList firstToken? seqs_to_keep with
  | none => none
  | some lookup =>
    match firstToken? seq_id with
    | none => none
    | some nid =>
      some (if negate then !(lookup.contains nid) else lookup.contains nid)

/-- The `keep_sample` predicate built inside
`filter_samples_from_distance_matrix` (`qiime/filter.py` lines 136-146):
the lookup is the set of first tokens of `samples_to_discard`; with
`negate = false` a sample is kept iff it is NOT in the lookup, with
`negate = true` iff it is.  The tested identifier is not normalised. -/
def keep_sample (samples_to_discard : List String) (negate : Bool)
    (sample_id : String) : Option Bool :=
  match tryMapList firstToken? samples_to_discard with
  | none => none
  | some lookup =>
    some (if negate then lookup.contains sample_id else !(lookup.contains sample_id))

/-- `filter_fasta` (`qiime/filter.py` lines 55-75): build the lookup from
`seqs_to_keep`, then write `>id\nseq\n` for every input record whose
identifier passes `keep_seq`.  The result is the list of written strings;
`none` models an uncaught `IndexError`. -/
def filter_fasta (input_seqs : List (String × String)) (seqs_to_keep : List String)
    (negate : Bool) : Option (List String) :=
  match tryMapList firstToken? seqs_to_keep with
  | none => none
  | some lookup =>
    match tryMapList (fun entry =>
        (firstToken? entry.1).map (fun nid =>
          if (if negate then !(lookup.contains nid) else lookup.contains nid) then
            [">" ++ entry.1 ++ "\n" ++ entry.2 ++ "\n"]
          else []))
        input_seqs with
    | none => none
    | some pieces => some pieces.flatten

lemma tryMapList_eq_none_iff {α β : Type} (f : α → Option β) (l : List α) :
    tryMapList f l = none ↔ ∃ a ∈ l, f a = none := by
  induction l with
  | nil => simp [tryMapList]
  | cons a as ih =>
    cases hfa : f a with
    | none => simp [tryMapList, hfa]
    | some b =>
      cases hrest : tryMapList f as with
      | none =>
        simp only [tryMapList, hfa, hrest]
        constructor
        · intro _
          rcases (ih.mp hrest) with ⟨x, hx, hfx⟩
          exact ⟨x, List.mem_cons_of_mem a hx, hfx⟩
        · intro _; trivial
      | some bs =>
        simp only [tryMapList, hfa, hrest]
        constructor
        · intro h; exact absurd h (by simp)
        · rintro ⟨x, hx, hfx⟩
          rcases List.mem_cons.mp hx with rfl | hx'
          · exact absurd hfa (by simp [hfx])
          · have : tryMapList f as = none := (ih.mpr ⟨x, hx', hfx⟩)
            rw [this] at hrest; cases hrest

lemma tryMapList_isSome {α β : Type} (f : α → Option β) (l : List α)
    (h : ∀ a ∈ l, (f a).isSome) : (tryMapList f l).isSome := by
  induction l with
  | nil => simp [tryMapList]
  | cons a as ih =>
    have ha : (f a).isSome := h a (List.mem_cons_self a as)
    have has : (tryMapList f as).isSome :=
      ih (fun x hx => h x (List.mem_cons_of_mem a hx))
    cases hfa : f a with
    | none => rw [hfa] at ha; cases ha
    | some b =>
      cases hrest : tryMapList f as with
      | none => rw [hrest] at has; cases has
      | some bs => simp [tryMapList, hfa, hrest]

/-- `firstToken?` succeeds exactly on strings with a non-whitespace character. -/
lemma firstToken?_isSome_iff (s : String) :
    (firstToken? s).isSome ↔ s.data.any (fun c => !(c.isWhitespace)) := by
  unfold firstToken?
  cases hdw : s.data.dropWhile Char.isWhitespace with
  | nil =>
    simp only [Option.isSome_none, Bool.false_eq_true, false_iff]
    intro hany
    rcases List.any_eq_true.mp hany with ⟨c, hc, hcw⟩
    have : c ∈ s.data.dropWhile Char.isWhitespace := by
      rcases List.dropWhile_eq_nil_iff.mp hdw with hall
      exact absurd (hall c hc) (by simpa using hcw)
    rw [hdw] at this; cases this
  | cons c cs =>
    simp only [Option.isSome_some, true_iff]
    have hc : c ∈ s.data := by
      have hsub : c ∈ s.data.dropWhile Char.isWhitespace := by
        rw [hdw]; exact List.mem_cons_self c cs
      exact List.dropWhile_subset Char.isWhitespace hsub
    have hcw : ¬ (Char.isWhitespace c = true) := by
      have := List.head?_dropWhile_not Char.isWhitespace s.data
      rw [hdw] at this
      simpa using this
    exact List.any_eq_true.mpr ⟨c, hc, by simpa using hcw⟩

/-- `firstToken?` fails exactly on all-whitespace (possibly empty) strings. -/
lemma firstToken?_eq_none_iff (s : String) :
    firstToken? s = none ↔ s.data.all Char.isWhitespace := by
  have h := firstToken?_isSome_iff s
  constructor
  · intro hn
    rw [hn] at h
    simp only [Option.isSome_none, Bool.false_eq_true, false_iff] at h
    refine List.all_eq_true.mpr (fun c hc => ?_)
    by_contra hcw
    exact h (List.any_eq_true.mpr ⟨c, hc, by simpa using hcw⟩)
  · intro hall
    cases hft : firstToken? s with
    | none => rfl
    | some t =>
      rw [hft] at h
      simp only [Option.isSome_some, true_iff] at h
      rcases List.any_eq_true.mp h with ⟨c, hc, hcw⟩
      have := List.all_eq_true.mp hall c hc
      simp [this] at hcw

/-- C2 counterexample: the spec states one shared membership keep rule for
sequence filtering and distance-matrix filtering (keep iff normalized
identifier is in the set when `negate = false`).  With the set `{"A"}` and
identifier `"A"`, `filter_fasta`'s rule keeps while
`filter_samples_from_distance_matrix`'s rule discards, so the rules are not
the same and the distance-matrix rule contradicts the stated membership
polarity. -/
theorem claim_C2_counterexample :
    keep_seq ["A"] false "A" = some true ∧
    keep_sample ["A"] false "A" = some false := by
  exact ⟨by decide, by decide⟩

/-- C2 (amended): the two rules share the normalized lookup set but have
opposite polarity, and the distance-matrix rule does not normalise the
tested identifier: for any identifier equal to its own first
whitespace-token, the distance-matrix keep decision (same set, same
`negate`) is the boolean negation of the sequence keep decision. -/
theorem claim_C2_amended :
    ∀ (ids : List String) (negate : Bool) (sid : String),
      firstToken? sid = some sid →
      keep_sample ids negate sid = (keep_seq ids negate sid).map (fun b => !b) := by
  intro ids negate sid hsid
  unfold keep_sample keep_seq
  cases h : tryMapList firstToken? ids with
  | none => rfl
  | some lookup =>
    rw [hsid]
    cases negate <;> simp

/-- C2 witness: the amended relation holds at the concrete set `{"A"}`,
flag `negate = true` and the already-normalised identifier `"B"`. -/
theorem claim_C2_witness :
    firstToken? "B" = some "B" ∧
    keep_sample ["A"] true "B" = (keep_seq ["A"] true "B").map (fun b => !b) :=
  ⟨by decide, claim_C2_amended ["A"] true "B" (by decide)⟩

/-- C8: for every identifier set and every identifier containing a
non-whitespace character, the sequence-filtering keep predicate with
`negate = false` is the boolean negation of the predicate with
`negate = true` (both are undefined together only when the set itself
fails to normalise, in which case both sides are `none`). -/
theorem claim_C8 :
    ∀ (ids : List String) (sid : String),
      sid.data.any (fun c => !(c.isWhitespace)) →
      keep_seq ids false sid = (keep_seq ids true sid).map (fun b => !b) := by
  intro ids sid hsid
  have hft : (firstToken? sid).isSome := (firstToken?_isSome_iff sid).mpr hsid
  unfold keep_seq
  cases h : tryMapList firstToken? ids with
  | none => rfl
  | some lookup =>
    cases hm : firstToken? sid with
    | none => rw [hm] at hft; cases hft
    | some nid => simp

/-- C8 witness: the negate invariant at the concrete set `{"A"}` and
identifier `"A extra"`. -/
theorem claim_C8_witness :
    (("A extra").data.any (fun c => !(c.isWhitespace)) = true) ∧
    keep_seq ["A"] false "A extra" = (keep_seq ["A"] true "A extra").map (fun b => !b) :=
  ⟨by decide, claim_C8 ["A"] "A extra" (by decide)⟩

/-- C10: identifier normalisation is partial.  If `seqs_to_keep` contains a
whitespace-only identifier, or some input record's identifier is
whitespace-only, `filter_fasta` fails (Python raises `IndexError`); if
every identifier on both sides contains a non-whitespace character, it
returns a result. -/
theorem claim_C10 :
    ∀ (input_seqs : List (String × String)) (seqs_to_keep : List String)
      (negate : Bool),
      (((∃ e ∈ seqs_to_keep, e.data.all Char.isWhitespace) ∨
        (∃ r ∈ input_seqs, r.1.data.all Char.isWhitespace)) →
          filter_fasta input_seqs seqs_to_keep negate = none) ∧
      ((∀ e ∈ seqs_to_keep, e.data.any (fun c => !(c.isWhitespace))) →
       (∀ r ∈ input_seqs, r.1.data.any (fun c => !(c.isWhitespace))) →
          (filter_fasta input_seqs seqs_to_keep negate).isSome) := by
  intro input_seqs seqs_to_keep negate
  constructor
  · rintro (⟨e, he, hall⟩ | ⟨r, hr, hall⟩)
    · have : tryMapList firstToken? seqs_to_keep = none :=
        (tryMapList_eq_none_iff _ _).mpr
          ⟨e, he, (firstToken?_eq_none_iff e).mpr hall⟩
      unfold filter_fasta
      rw [this]
    · unfold filter_fasta
      cases h : tryMapList firstToken? seqs_to_keep with
      | none => rfl
      | some lookup =>
        have hr1 : firstToken? r.1 = none := (firstToken?_eq_none_iff r.1).mpr hall
        have : tryMapList (fun entry =>
            (firstToken? entry.1).map (fun nid =>
              if (if negate then !(lookup.contains nid) else lookup.contains nid) then
                [">" ++ entry.1 ++ "\n" ++ entry.2 ++ "\n"]
              else [])) input_seqs = none :=
          (tryMapList_eq_none_iff _ _).mpr ⟨r, hr, by rw [hr1]; rfl⟩
        simp only [this]
  · intro hkeep hrec
    unfold filter_fasta
    have h1 : (tryMapList firstToken? seqs_to_keep).isSome :=
      tryMapList_isSome _ _
        (fun e he => (firstToken?_isSome_iff e).mpr (hkeep e he))
    cases h : tryMapList firstToken? seqs_to_keep with
    | none => rw [h] at h1; cases h1
    | some lookup =>
      have h2 : (tryMapList (fun entry =>
          (firstToken? entry.1).map (fun nid =>
            if (if negate then !(lookup.contains nid) else lookup.contains nid) then
              [">" ++ entry.1 ++ "\n" ++ entry.2 ++ "\n"]
            else [])) input_seqs).isSome := by
        refine tryMapList_isSome _ _ (fun r hr => ?_)
        have hsome : (firstToken? r.1).isSome :=
          (firstToken?_isSome_iff r.1).mpr (hrec r hr)
        cases hm : firstToken? r.1 with
        | none => rw [hm] at hsome; cases hsome
        | some nid => simp [hm]
      cases h2' : tryMapList (fun entry =>
          (firstToken? entry.1).map (fun nid =>
            if (if negate then !(lookup.contains nid) else lookup.contains nid) then
              [">" ++ entry.1 ++ "\n" ++ entry.2 ++ "\n"]
            else [])) input_seqs with
      | none => rw [h2'] at h2; cases h2
      | some pieces => simp only [h2', Option.isSome_some]

/-- C10 witness: a whitespace-only keep-set identifier makes `filter_fasta`
fail, and with all identifiers containing non-whitespace it succeeds. -/
theorem claim_C10_witness :
    filter_fasta [("A", "ACGT")] [" "] false = none ∧
    (filter_fasta [("A desc", "ACGT"), ("B", "TTTT")] ["A"] false).isSome :=
  ⟨(claim_C10 [("A", "ACGT")] [" "] false).1 (Or.inl ⟨" ", by decide, by decide⟩),
   (claim_C10 [("A desc", "ACGT"), ("B", "TTTT")] ["A"] false).2
     (by decide) (by decide)⟩

/-- `get_sample_ids` (`qiime/filter.py` lines 28-52).  `states` is the
constraint set `{col: [vals]}`, modelled as an association list in dict
insertion order.  `name_to_col` is built first and raises
`ValueError: '<col>' is not in list` (from `list.index`) at the first
constrained column absent from the header; this is the `.error` branch.
Then a row is accumulated iff the mutable `include` stays true across all
constraints; `row[j]` is modelled with `getD` (exact under the table
invariant that rows have header length). -/
def get_sample_ids (map_data : List (List String)) (map_header : List String)
    (states : List (String × List String)) : Except String (List String) :=
  match states.find? (fun sv => !(map_header.contains sv.1)) with
  | some sv => .error (sv.1 ++ " is not in list")
  | none =>
    .ok ((map_data.filter (fun row =>
        states.foldl (fun incl sv =>
          (incl && (sv.2.contains (row.getD (map_header.indexOf sv.1) "") ||
            sv.2.contains "*")) &&
          !(sv.2.contains ("!" ++ row.getD (map_header.indexOf sv.1) ""))) true)).map
      (fun row => row.getD 0 ""))

/-- The documented row-inclusion formula of the spec, written as the spec
states it: a row is kept iff for EVERY constrained column,
`(cell ∈ tokens ∨ "*" ∈ tokens) ∧ ("!" ++ cell) ∉ tokens`. -/
def rowIncludedSpec (map_header : List String) (states : List (String × List String))
    (row : List String) : Bool :=
  states.all (fun sv =>
    (sv.2.contains (row.getD (map_header.indexOf sv.1) "") ||
      sv.2.contains "*") &&
    !(sv.2.contains ("!" ++ row.getD (map_header.indexOf sv.1) "")))

lemma foldl_and_pair {α : Type} (g h : α → Bool) (l : List α) (b : Bool) :
    l.foldl (fun acc x => (acc && g x) && h x) b = (b && l.all (fun x => g x && h x)) := by
  induction l generalizing b with
  | nil => simp
  | cons a as ih =>
    rw [List.foldl_cons, ih, List.all_cons]
    simp [Bool.and_assoc]

/-- C1: when every constrained column occurs in the header,
`get_sample_ids` returns exactly the first-column identifiers of the rows
satisfying the documented inclusion formula (conjunction over columns;
within a column, literal-or-wildcard membership with exclusions taking
precedence). -/
theorem claim_C1 :
    ∀ (map_data : List (List String)) (map_header : List String)
      (states : List (String × List String)),
      (∀ sv ∈ states, sv.1 ∈ map_header) →
      get_sample_ids map_data map_header states =
        .ok ((map_data.filter (rowIncludedSpec map_header states)).map
          (fun row => row.getD 0 "")) := by
  intro md mh states h
  unfold get_sample_ids
  have hfind : states.find? (fun sv => !(mh.contains sv.1)) = none := by
    refine List.find?_eq_none.mpr (fun sv hsv => ?_)
    simp [h sv hsv]
  rw [hfind]
  have hrow : ∀ row : List String,
      states.foldl (fun incl sv =>
        (incl && (sv.2.contains (row.getD (mh.indexOf sv.1) "") ||
          sv.2.contains "*")) &&
        !(sv.2.contains ("!" ++ row.getD (mh.indexOf sv.1) ""))) true =
      rowIncludedSpec mh states row := by
    intro row
    rw [foldl_and_pair
      (fun sv => sv.2.contains (row.getD (mh.indexOf sv.1) "") || sv.2.contains "*")
      (fun sv => !(sv.2.contains ("!" ++ row.getD (mh.indexOf sv.1) "")))
      states true]
    rw [Bool.true_and]
    rfl
  simp only [hrow]

/-- C1 witness: the spec's end-to-end example — condition
`Study:Dog,Hand;BodySite:Palm,Stool` on the three-row table selects
`S1` and `S2`. -/
theorem claim_C1_witness :
    (∀ sv ∈ [("Study", ["Dog", "Hand"]), ("BodySite", ["Palm", "Stool"])],
      sv.1 ∈ ["SampleID", "Study", "BodySite", "Description"]) ∧
    get_sample_ids
      [["S1", "Dog", "Palm", "d1"], ["S2", "Hand", "Stool", "d2"],
        ["S3", "Cat", "Palm", "d3"]]
      ["SampleID", "Study", "BodySite", "Description"]
      [("Study", ["Dog", "Hand"]), ("BodySite", ["Palm", "Stool"])] =
      .ok (([["S1", "Dog", "Palm", "d1"], ["S2", "Hand", "Stool", "d2"],
        ["S3", "Cat", "Palm", "d3"]].filter
          (rowIncludedSpec ["SampleID", "Study", "BodySite", "Description"]
            [("Study", ["Dog", "Hand"]), ("BodySite", ["Palm", "Stool"])])).map
        (fun row => row.getD 0 "")) :=
  ⟨by decide, claim_C1 _ _ _ (by decide)⟩

/-- C7: if some constrained column is absent from the header,
`get_sample_ids` signals the error naming the first missing column and
returns no identifier list; if every constrained column is present, it
never returns an error. -/
theorem claim_C7 :
    ∀ (map_data : List (List String)) (map_header : List String)
      (states : List (String × List String)),
      (∀ sv0, states.find? (fun sv => !(map_header.contains sv.1)) = some sv0 →
        sv0 ∈ states ∧ sv0.1 ∉ map_header ∧
        get_sample_ids map_data map_header states =
          .error (sv0.1 ++ " is not in list")) ∧
      ((∃ sv ∈ states, sv.1 ∉ map_header) →
        (states.find? (fun sv => !(map_header.contains sv.1))).isSome) ∧
      ((∀ sv ∈ states, sv.1 ∈ map_header) →
        ∀ e, get_sample_ids map_data map_header states ≠ .error e) := by
  intro md mh states
  refine ⟨?_, ?_, ?_⟩
  · intro sv0 hfind
    have hmem : sv0 ∈ states := List.mem_of_find?_eq_some hfind
    have hp := List.find?_some hfind
    refine ⟨hmem, by simpa using hp, ?_⟩
    unfold get_sample_ids
    rw [hfind]
  · rintro ⟨sv, hsv, hnot⟩
    exact List.find?_isSome.mpr ⟨sv, hsv, by simpa using hnot⟩
  · intro h e
    have hfind : states.find? (fun sv => !(mh.contains sv.1)) = none := by
      refine List.find?_eq_none.mpr (fun sv hsv => ?_)
      simp [h sv hsv]
    unfold get_sample_ids
    rw [hfind]
    intro hcontra
    cases hcontra

/-- C7 witness: constraining the absent column `B` yields the error naming
`B`; a fully present constraint set yields no error. -/
theorem claim_C7_witness :
    (("B", ["x"]) ∈ [("B", ["x"])] ∧ "B" ∉ ["A"] ∧
      get_sample_ids [["r"]] ["A"] [("B", ["x"])] =
        .error ("B" ++ " is not in list")) ∧
    get_sample_ids [["S1", "Dog"]] ["SampleID", "Study"] [("Study", ["Dog"])] ≠
      .error "Study is not in list" :=
  ⟨(claim_C7 [["r"]] ["A"] [("B", ["x"])]).1 ("B", ["x"]) rfl,
   (claim_C7 [["S1", "Dog"]] ["SampleID", "Study"] [("Study", ["Dog"])]).2.2
     (by decide) "Study is not in list"⟩

/-- `get_filter_function` (`qiime/filter.py` lines 179-188): returns the
predicate `f(data_vector, id_, metadata)`; the `metadata` argument is
accepted and ignored, as in the source.  Data vectors are integer count
vectors and `data_vector.sum()` is `List.sum`. -/
def get_filter_function (ids_to_keep : List String) (min_count max_count : Int)
    (negate_ids_to_keep : Bool) : List Int → String → List String → Bool :=
  if negate_ids_to_keep then
    fun data_vector id_ _metadata =>
      !(ids_to_keep.contains id_) &&
        decide (min_count ≤ data_vector.sum ∧ data_vector.sum ≤ max_count)
  else
    fun data_vector id_ _metadata =>
      ids_to_keep.contains id_ &&
        decide (min_count ≤ data_vector.sum ∧ data_vector.sum ≤ max_count)

/-- C3: the predicate keeps iff (membership in `ids_to_keep`, inverted when
`negate_ids_to_keep`) AND `min_count ≤ sum ≤ max_count` with both bounds
inclusive: a vector summing to exactly a bound passes the count test (the
decision reduces to the membership half alone), while `min_count - 1` or
`max_count + 1` makes the decision false regardless of membership and of
`negate_ids_to_keep`. -/
theorem claim_C3 :
    ∀ (ids : List String) (mn mx : Int) (neg : Bool) (dv : List Int)
      (id_ : String) (md : List String),
      (get_filter_function ids mn mx neg dv id_ md = true ↔
        ((if neg then id_ ∉ ids else id_ ∈ ids) ∧
          mn ≤ dv.sum ∧ dv.sum ≤ mx)) ∧
      ((dv.sum = mn ∨ dv.sum = mx) → mn ≤ mx →
        get_filter_function ids mn mx neg dv id_ md =
          (if neg then !(ids.contains id_) else ids.contains id_)) ∧
      (dv.sum = mn - 1 → get_filter_function ids mn mx neg dv id_ md = false) ∧
      (dv.sum = mx + 1 → get_filter_function ids mn mx neg dv id_ md = false) := by
  intro ids mn mx neg dv id_ md
  refine ⟨?_, ?_, ?_, ?_⟩
  · cases neg <;>
      simp [get_filter_function, and_assoc]
  · rintro (hs | hs) hle <;> cases neg <;>
      simp [get_filter_function, hs, hle]
  · intro hs
    have hlt : ¬ (mn ≤ dv.sum) := by omega
    cases neg <;> simp [get_filter_function, hlt]
  · intro hs
    have hgt : ¬ (dv.sum ≤ mx) := by omega
    cases neg <;> simp [get_filter_function, hgt]

/-- C3 witness: boundary checks at `min_count = 2`, `max_count = 5` with the
kept identifier `a`: sums 2 and 5 pass, 1 and 6 fail. -/
theorem claim_C3_witness :
    (get_filter_function ["a"] 2 5 false [2] "a" [] = true ↔
      ((if false then "a" ∉ ["a"] else "a" ∈ ["a"]) ∧
        (2 : Int) ≤ [(2 : Int)].sum ∧ [(2 : Int)].sum ≤ 5)) ∧
    get_filter_function ["a"] 2 5 false [5] "a" [] =
      (if false then !(List.contains ["a"] "a") else List.contains ["a"] "a") ∧
    get_filter_function ["a"] 2 5 false [1] "a" [] = false ∧
    get_filter_function ["a"] 2 5 false [6] "a" [] = false :=
  ⟨(claim_C3 ["a"] 2 5 false [2] "a" []).1,
   (claim_C3 ["a"] 2 5 false [5] "a" []).2.1 (Or.inr (by decide)) (by decide),
   (claim_C3 ["a"] 2 5 false [1] "a" []).2.2.1 (by decide),
   (claim_C3 ["a"] 2 5 false [6] "a" []).2.2.2 (by decide)⟩

/-- Row retention in `filter_mapping_file` (`qiime/filter.py` lines 86-87):
keep the rows whose identifier cell is in `good_sample_ids`. -/
def keptRows (map_data : List (List String)) (good_sample_ids : List String) :
    List (List String) :=
  map_data.filter (fun row => good_sample_ids.contains (row.getD 0 ""))

/-- Length of the shortest list (0 for an empty family); the number of
tuples Python's `zip(*ls)` produces. -/
def minLen (ls : List (List String)) : Nat :=
  match ls with
  | [] => 0
  | l :: rest => rest.foldl (fun acc r => min acc r.length) l.length

/-- Python `zip(*ls)`: transposition truncating to the shortest list. -/
def pyZip (ls : List (List String)) : List (List String) :=
  (List.range (minLen ls)).map (fun j => ls.map (fun l => l.getD j ""))

/-- Python `len(set(l))`: the number of distinct values in `l`. -/
def setSize (l : List String) : Nat := l.dedup.length

/-- The column loop of `filter_mapping_file` (`qiime/filter.py` lines
95-112), over the interior columns `to_keep[1:-1]` with the enumeration
counter `i`.  State: `hs` is the headers accumulator, `rs` the columns
appended after `result[0]`, and `r0` the current `result[0]`.  `cri` is the
0-based rename position (`column_rename_ids - 1`), `none` when no renaming
is requested: at `i = cri` the loop checks uniqueness
(`len(set(l)) != len(result[0])` raises `ValueError`), appends the current
`result[0]` and installs `l` as the new `result[0]` under the header
`SampleID_was_ + map_header[i+1]`; at any other `i` the column is appended
iff `include_repeat_cols or len(set(l)) > 1`. -/
def fmfLoop (map_header : List String) (include_repeat_cols : Bool)
    (cri : Option Nat) (i : Nat) (cols : List (List String))
    (hs : List String) (rs : List (List String)) (r0 : List String) :
    Except String (List String × List (List String) × List String) :=
  match cols with
  | [] => .ok (hs, rs, r0)
  | l :: rest =>
    if cri = some i then
      if setSize l ≠ r0.length then
        .error "The column to rename the samples is not unique."
      else
        fmfLoop map_header include_repeat_cols cri (i + 1) rest
          (hs ++ ["SampleID_was_" ++ map_header.getD (i + 1) ""]) (rs ++ [r0]) l
    else if include_repeat_cols || setSize l > 1 then
      fmfLoop map_header include_repeat_cols cri (i + 1) rest
        (hs ++ [map_header.getD (i + 1) ""]) (rs ++ [l]) r0
    else
      fmfLoop map_header include_repeat_cols cri (i + 1) rest hs rs r0

/-- `filter_mapping_file` (`qiime/filter.py` lines 77-118).  Keep the rows
in `good_sample_ids`, transpose (`zip(*to_keep)`; `result = [to_keep[0]]`
raises `IndexError` when no row is retained), run the column loop over
`to_keep[1:-1]` (Python's `if column_rename_ids:` is false for both `None`
and `0`), then append the last header and last column unconditionally and
transpose back. -/
def filter_mapping_file (map_data : List (List String)) (map_header : List String)
    (good_sample_ids : List String) (include_repeat_cols : Bool)
    (column_rename_ids : Option Nat) :
    Except String (List String × List (List String)) :=
  match pyZip (keptRows map_data good_sample_ids) with
  | [] => .error "list index out of range"
  | c0 :: restCols =>
    match fmfLoop map_header include_repeat_cols
        (match column_rename_ids with
         | some n => if n = 0 then none else some (n - 1)
         | none => none)
        0 restCols.dropLast [map_header.getD 0 ""] [] c0 with
    | .error e => .error e
    | .ok (hs, rs, r0) =>
      .ok (hs ++ [map_header.getLastD ""],
        pyZip (r0 :: rs ++ [restCols.getLastD c0]))

/-- Column `j` of a row-major table. -/
def colAt (rows : List (List String)) (j : Nat) : List String :=
  rows.map (fun row => row.getD j "")

/-- The interior column indices that survive the pruning, as the spec
states it: a non-identifier interior column survives iff
`include_repeat_cols` is true or it has more than one distinct value among
the retained rows. -/
def survivingIdx (rows : List (List String)) (irc : Bool) (js : List Nat) :
    List Nat :=
  js.filter (fun j => irc || setSize (colAt rows j) > 1)

/-- The output of `filter_mapping_file` without renaming, as the spec
states it: identifier column first, then the surviving interior columns
(indices `1 .. len-2`) in original order, then the final column; rows are
the retained rows restricted to those columns. -/
def fmfSpecNoRename (map_data : List (List String)) (map_header : List String)
    (good_sample_ids : List String) (irc : Bool) :
    List String × List (List String) :=
  let kept := keptRows map_data good_sample_ids
  let m := map_header.length
  let surv := survivingIdx kept irc (List.range' 1 (m - 2))
  (map_header.getD 0 "" :: surv.map (fun j => map_header.getD j "") ++
     [map_header.getD (m - 1) ""],
   kept.map (fun row => row.getD 0 "" :: surv.map (fun j => row.getD j "") ++
     [row.getD (m - 1) ""]))

/-- The output of `filter_mapping_file` when interior column `n` (1-based
interior position `n`, overall index `n`) is made the identifier column:
its values come first; the surviving interior columns before it keep their
order; the demoted original identifier column takes its slot under the
header `SampleID_was_<original header of column n>`; then the surviving
interior columns after it, and the final column last. -/
def fmfSpecRename (map_data : List (List String)) (map_header : List String)
    (good_sample_ids : List String) (irc : Bool) (n : Nat) :
    List String × List (List String) :=
  let kept := keptRows map_data good_sample_ids
  let m := map_header.length
  let pre := survivingIdx kept irc (List.range' 1 (n - 1))
  let post := survivingIdx kept irc (List.range' (n + 1) (m - 2 - n))
  (map_header.getD 0 "" ::
     (pre.map (fun j => map_header.getD j "") ++
      ("SampleID_was_" ++ map_header.getD n "") ::
      post.map (fun j => map_header.getD j "")) ++
     [map_header.getD (m - 1) ""],
   kept.map (fun row => row.getD n "" ::
     (pre.map (fun j => row.getD j "") ++
      row.getD 0 "" ::
      post.map (fun j => row.getD j "")) ++
     [row.getD (m - 1) ""]))

lemma minLen_of_rect (ls : List (List String)) (m : Nat)
    (h : ∀ l ∈ ls, l.length = m) (hne : ls ≠ []) : minLen ls = m := by
  cases ls with
  | nil => exact absurd rfl hne
  | cons l rest =>
    have haux : ∀ rest' : List (List String), (∀ r ∈ rest', r.length = m) →
        rest'.foldl (fun acc r => min acc r.length) m = m := by
      intro rest'
      induction rest' with
      | nil => intro _; rfl
      | cons r rs ih =>
        intro hr
        rw [List.foldl_cons, hr r (List.mem_cons_self r rs), min_self]
        exact ih (fun x hx => hr x (List.mem_cons_of_mem r hx))
    simp only [minLen]
    rw [h l (List.mem_cons_self l rest)]
    exact haux rest (fun x hx => h x (List.mem_cons_of_mem l hx))

lemma colAt_length (rows : List (List String)) (j : Nat) :
    (colAt rows j).length = rows.length := by
  simp [colAt]

lemma pyZip_of_rect (ls : List (List String)) (m : Nat)
    (h : ∀ l ∈ ls, l.length = m) (hne : ls ≠ []) :
    pyZip ls = (List.range m).map (fun j => colAt ls j) := by
  simp only [pyZip, colAt, minLen_of_rect ls m h hne]

lemma pyZip_cols_eq_rows (kept : List (List String)) (js : List Nat)
    (hjs : js ≠ []) :
    pyZip (js.map (fun j => colAt kept j)) =
      kept.map (fun row => js.map (fun j => row.getD j "")) := by
  have hlen : ∀ c ∈ js.map (fun j => colAt kept j), c.length = kept.length := by
    intro c hc
    rcases List.mem_map.mp hc with ⟨j, _, rfl⟩
    exact colAt_length kept j
  have hne : js.map (fun j => colAt kept j) ≠ [] := by
    simpa using hjs
  rw [pyZip_of_rect _ kept.length hlen hne]
  refine List.ext_getElem (by simp) ?_
  intro p h1 h2
  have hp : p < kept.length := by simpa using h2
  simp only [List.getElem_map, List.getElem_range, colAt, List.map_map]
  refine List.map_congr_left (fun j hj => ?_)
  simp only [Function.comp]
  rw [List.getD_eq_getElem _ _ (by simpa using hp), List.getElem_map]

lemma getLastD_eq_getD_last (l : List String) :
    l.getLastD "" = l.getD (l.length - 1) "" := by
  rw [List.getLastD_eq_getLast?, List.getLast?_eq_getElem?, List.getD_eq_getElem?_getD]

/-- Characterisation of the column loop over a segment it passes through
without hitting the rename position: it appends exactly the surviving
columns (and their headers) in order and leaves `result[0]` unchanged. -/
lemma fmfLoop_skip (mh : List String) (irc : Bool) (cri : Option Nat)
    (col : Nat → List String) :
    ∀ (k i : Nat) (hs : List String) (rs : List (List String)) (r0 : List String),
      (∀ p, i ≤ p → p < i + k → cri ≠ some p) →
      fmfLoop mh irc cri i ((List.range' (i + 1) k).map col) hs rs r0 =
        .ok (hs ++ (((List.range' (i + 1) k).filter
              (fun j => irc || setSize (col j) > 1)).map (fun j => mh.getD j "")),
             rs ++ (((List.range' (i + 1) k).filter
              (fun j => irc || setSize (col j) > 1)).map col),
             r0) := by
  intro k
  induction k with
  | zero => intro i hs rs r0 _; simp [fmfLoop]
  | succ k ih =>
    intro i hs rs r0 h
    rw [List.range'_succ]
    have hci : ¬ (cri = some i) := h i (Nat.le_refl i) (by omega)
    by_cases hsurv : (irc || setSize (col (i + 1)) > 1) = true
    · simp only [List.map_cons, fmfLoop, if_neg hci, if_pos hsurv]
      rw [ih (i + 1) _ _ _ (fun p hp1 hp2 => h p (by omega) (by omega))]
      simp [List.filter_cons, hsurv, List.append_assoc]
    · simp only [List.map_cons, fmfLoop, if_neg hci, if_neg hsurv]
      rw [ih (i + 1) _ _ _ (fun p hp1 hp2 => h p (by omega) (by omega))]
      simp [List.filter_cons, hsurv]

/-- Splitting the column loop at a successful prefix. -/
lemma fmfLoop_append_ok (mh : List String) (irc : Bool) (cri : Option Nat) :
    ∀ (xs : List (List String)) (i : Nat) (hs hs' : List String)
      (rs rs' : List (List String)) (r0 r0' : List String)
      (ys : List (List String)),
      fmfLoop mh irc cri i xs hs rs r0 = .ok (hs', rs', r0') →
      fmfLoop mh irc cri i (xs ++ ys) hs rs r0 =
        fmfLoop mh irc cri (i + xs.length) ys hs' rs' r0' := by
  intro xs
  induction xs with
  | nil =>
    intro i hs hs' rs rs' r0 r0' ys h
    simp only [fmfLoop] at h
    injection h with h'
    injection h' with h1 h2
    injection h2 with h2 h3
    subst h1; subst h2; subst h3
    simp
  | cons l xs ih =>
    intro i hs hs' rs rs' r0 r0' ys h
    rw [List.cons_append, List.length_cons,
      show i + (xs.length + 1) = (i + 1) + xs.length from by omega]
    by_cases hc : cri = some i
    · by_cases hu : setSize l ≠ r0.length
      · simp only [fmfLoop, if_pos hc, if_pos hu] at h
        cases h
      · simp only [fmfLoop, if_pos hc, if_neg hu] at h ⊢
        exact ih (i + 1) _ _ _ _ _ _ ys h
    · by_cases hsurv : (irc || setSize l > 1) = true
      · simp only [fmfLoop, if_neg hc, if_pos hsurv] at h ⊢
        exact ih (i + 1) _ _ _ _ _ _ ys h
      · simp only [fmfLoop, if_neg hc, if_neg hsurv] at h ⊢
        exact ih (i + 1) _ _ _ _ _ _ ys h

/-- C4: with at least one retained row and no rename request,
`filter_mapping_file` returns the identifier column first, then exactly the
surviving interior columns (survive iff `include_repeat_cols` or more than
one distinct value among retained rows) in original order, then the final
column; rows are the retained rows restricted to those columns. -/
theorem claim_C4 :
    ∀ (map_data : List (List String)) (map_header : List String)
      (good_sample_ids : List String) (irc : Bool),
      2 ≤ map_header.length →
      (∀ row ∈ map_data, row.length = map_header.length) →
      keptRows map_data good_sample_ids ≠ [] →
      filter_mapping_file map_data map_header good_sample_ids irc none =
        .ok (fmfSpecNoRename map_data map_header good_sample_ids irc) := by
  intro md mh good irc h2 hrect hkept
  obtain ⟨m', hm'⟩ : ∃ m', mh.length = m' + 2 := ⟨mh.length - 2, by omega⟩
  have e1 : mh.length - 2 = m' := by omega
  have e2 : mh.length - 1 = m' + 1 := by omega
  have hcomm : 1 + m' = m' + 1 := Nat.add_comm 1 m'
  have hrectk : ∀ r ∈ keptRows md good, r.length = mh.length :=
    fun r hr => hrect r (List.mem_of_mem_filter hr)
  have hz : pyZip (keptRows md good) =
      colAt (keptRows md good) 0 ::
        (List.range' 1 (m' + 1)).map (fun j => colAt (keptRows md good) j) := by
    rw [pyZip_of_rect _ mh.length hrectk hkept, hm', List.range_eq_range',
      List.range'_succ, List.map_cons, Nat.zero_add]
  have hsplit : (List.range' 1 (m' + 1)).map (fun j => colAt (keptRows md good) j) =
      (List.range' 1 m').map (fun j => colAt (keptRows md good) j) ++
        [colAt (keptRows md good) (m' + 1)] := by
    rw [List.range'_1_concat, List.map_append, hcomm]
    rfl
  have hdrop : ((List.range' 1 (m' + 1)).map
      (fun j => colAt (keptRows md good) j)).dropLast =
      (List.range' 1 m').map (fun j => colAt (keptRows md good) j) := by
    rw [hsplit, List.dropLast_concat]
  have hlast : ((List.range' 1 (m' + 1)).map
      (fun j => colAt (keptRows md good) j)).getLastD
        (colAt (keptRows md good) 0) = colAt (keptRows md good) (m' + 1) := by
    rw [hsplit, List.getLastD_concat]
  have hloop := fmfLoop_skip mh irc none (fun j => colAt (keptRows md good) j)
    m' 0 [mh.getD 0 ""] [] (colAt (keptRows md good) 0)
    (fun p _ _ => by simp)
  rw [Nat.zero_add] at hloop
  unfold filter_mapping_file
  rw [hz]
  simp only [hdrop, hlast, hloop]
  simp only [List.nil_append, List.singleton_append]
  have hjs : colAt (keptRows md good) 0 ::
      List.map (fun j => colAt (keptRows md good) j)
        (List.filter (fun j => irc || decide (setSize (colAt (keptRows md good) j) > 1))
          (List.range' 1 m')) ++
      [colAt (keptRows md good) (m' + 1)] =
      List.map (fun j => colAt (keptRows md good) j)
        (0 :: List.filter (fun j => irc || decide (setSize (colAt (keptRows md good) j) > 1))
          (List.range' 1 m') ++ [m' + 1]) := by
    simp
  rw [hjs, pyZip_cols_eq_rows _ _ (by simp)]
  have e3 : m' + 2 - 2 = m' := by omega
  have e4 : m' + 2 - 1 = m' + 1 := by omega
  simp only [fmfSpecNoRename, survivingIdx, hm', e1, e2, e3, e4,
    getLastD_eq_getD_last, List.map_cons, List.map_append, List.map_nil,
    List.cons_append, List.nil_append]

/-- C4 witness: a table with one constant interior column (dropped) and one
varying interior column (kept). -/
theorem claim_C4_witness :
    filter_mapping_file
      [["S1", "x", "p", "d1"], ["S2", "x", "q", "d2"], ["S3", "y", "r", "d3"]]
      ["SampleID", "A", "B", "Description"] ["S1", "S2"] false none =
      .ok (fmfSpecNoRename
        [["S1", "x", "p", "d1"], ["S2", "x", "q", "d2"], ["S3", "y", "r", "d3"]]
        ["SampleID", "A", "B", "Description"] ["S1", "S2"] false) ∧
    fmfSpecNoRename
      [["S1", "x", "p", "d1"], ["S2", "x", "q", "d2"], ["S3", "y", "r", "d3"]]
      ["SampleID", "A", "B", "Description"] ["S1", "S2"] false =
      (["SampleID", "B", "Description"], [["S1", "p", "d1"], ["S2", "q", "d2"]]) :=
  ⟨claim_C4
    [["S1", "x", "p", "d1"], ["S2", "x", "q", "d2"], ["S3", "y", "r", "d3"]]
    ["SampleID", "A", "B", "Description"] ["S1", "S2"] false
    (by decide) (by decide) (by decide), by decide⟩

/-- C6: when the designated interior column (1-based interior position `n`,
overall index `n`) does not have pairwise-distinct values across the
retained rows, `filter_mapping_file` stops with the non-unique-identifier
error and produces no output table. -/
theorem claim_C6 :
    ∀ (map_data : List (List String)) (map_header : List String)
      (good_sample_ids : List String) (irc : Bool) (n : Nat),
      1 ≤ n → n ≤ map_header.length - 2 →
      (∀ row ∈ map_data, row.length = map_header.length) →
      keptRows map_data good_sample_ids ≠ [] →
      setSize (colAt (keptRows map_data good_sample_ids) n) ≠
        (keptRows map_data good_sample_ids).length →
      filter_mapping_file map_data map_header good_sample_ids irc (some n) =
        .error "The column to rename the samples is not unique." := by
  intro md mh good irc n hn1 hn2 hrect hkept huniq
  obtain ⟨n', hn'⟩ : ∃ n', n = n' + 1 := ⟨n - 1, by omega⟩
  obtain ⟨m', hm'⟩ : ∃ m', mh.length = m' + 2 := ⟨mh.length - 2, by omega⟩
  obtain ⟨k, hk⟩ : ∃ k, m' = n' + 1 + k := ⟨m' - n' - 1, by omega⟩
  have hrectk : ∀ r ∈ keptRows md good, r.length = mh.length :=
    fun r hr => hrect r (List.mem_of_mem_filter hr)
  have hz : pyZip (keptRows md good) =
      colAt (keptRows md good) 0 ::
        (List.range' 1 (m' + 1)).map (fun j => colAt (keptRows md good) j) := by
    rw [pyZip_of_rect _ mh.length hrectk hkept, hm', List.range_eq_range',
      List.range'_succ, List.map_cons, Nat.zero_add]
  have hsplit : (List.range' 1 (m' + 1)).map (fun j => colAt (keptRows md good) j) =
      (List.range' 1 m').map (fun j => colAt (keptRows md good) j) ++
        [colAt (keptRows md good) (m' + 1)] := by
    rw [List.range'_1_concat, List.map_append, Nat.add_comm 1 m']
    rfl
  have hdrop : ((List.range' 1 (m' + 1)).map
      (fun j => colAt (keptRows md good) j)).dropLast =
      (List.range' 1 m').map (fun j => colAt (keptRows md good) j) := by
    rw [hsplit, List.dropLast_concat]
  have hint : (List.range' 1 m').map (fun j => colAt (keptRows md good) j) =
      ((List.range' 1 n').map (fun j => colAt (keptRows md good) j)) ++
        (colAt (keptRows md good) n ::
          (List.range' (n + 1) k).map (fun j => colAt (keptRows md good) j)) := by
    have hranges := List.range'_append_1 1 n' (k + 1)
    rw [show (k + 1) + n' = n' + 1 + k from by omega] at hranges
    rw [hk, ← hranges, List.map_append, List.range'_succ, List.map_cons,
      show 1 + n' = n from by omega]
  have hcri : (if n = 0 then (none : Option Nat) else some (n - 1)) = some n' := by
    simp [hn']
  have hpre := fmfLoop_skip mh irc (some n') (fun j => colAt (keptRows md good) j)
    n' 0 [mh.getD 0 ""] [] (colAt (keptRows md good) 0)
    (fun p _ hp2 hq => absurd (Option.some_inj.mp hq) (by omega))
  rw [Nat.zero_add] at hpre
  have happ := fmfLoop_append_ok mh irc (some n')
    ((List.range' 1 n').map (fun j => colAt (keptRows md good) j)) 0
    [mh.getD 0 ""] _ [] _ (colAt (keptRows md good) 0) _
    (colAt (keptRows md good) n ::
      (List.range' (n + 1) k).map (fun j => colAt (keptRows md good) j)) hpre
  simp only [List.length_map, List.length_range', Nat.zero_add] at happ
  have hstep : fmfLoop mh irc (some n') n'
      (colAt (keptRows md good) n ::
        (List.range' (n + 1) k).map (fun j => colAt (keptRows md good) j))
      ([mh.getD 0 ""] ++ ((List.range' 1 n').filter
        (fun j => irc || setSize (colAt (keptRows md good) j) > 1)).map
          (fun j => mh.getD j ""))
      ([] ++ ((List.range' 1 n').filter
        (fun j => irc || setSize (colAt (keptRows md good) j) > 1)).map
          (fun j => colAt (keptRows md good) j))
      (colAt (keptRows md good) 0) =
      .error "The column to rename the samples is not unique." := by
    have hcond : setSize (colAt (keptRows md good) n) ≠
        (colAt (keptRows md good) 0).length := by
      rw [colAt_length]; exact huniq
    simp only [fmfLoop, if_pos rfl, if_pos hcond, if_true]
  unfold filter_mapping_file
  rw [hz]
  simp only [hdrop, hcri, hint, happ, hstep]

/-- C6 witness: renaming by the constant interior column `A` of the C4
witness table fails with the uniqueness error. -/
theorem claim_C6_witness :
    (1 : Nat) ≤ 1 ∧
    setSize (colAt (keptRows
      [["S1", "x", "p", "d1"], ["S2", "x", "q", "d2"], ["S3", "y", "r", "d3"]]
      ["S1", "S2"]) 1) ≠
      (keptRows
        [["S1", "x", "p", "d1"], ["S2", "x", "q", "d2"], ["S3", "y", "r", "d3"]]
        ["S1", "S2"]).length ∧
    filter_mapping_file
      [["S1", "x", "p", "d1"], ["S2", "x", "q", "d2"], ["S3", "y", "r", "d3"]]
      ["SampleID", "A", "B", "Description"] ["S1", "S2"] false (some 1) =
      .error "The column to rename the samples is not unique." :=
  ⟨by decide, by decide,
   claim_C6
     [["S1", "x", "p", "d1"], ["S2", "x", "q", "d2"], ["S3", "y", "r", "d3"]]
     ["SampleID", "A", "B", "Description"] ["S1", "S2"] false 1
     (by decide) (by decide) (by decide) (by decide) (by decide)⟩

/-- C5: when the designated interior column (1-based interior position `n`,
overall index `n`) has pairwise-distinct values across the retained rows,
`filter_mapping_file` makes its values the new identifier column (first),
demotes the original identifier column to a regular retained column at the
designated column's slot, and labels that slot
`SampleID_was_<original header of column n>`. -/
theorem claim_C5 :
    ∀ (map_data : List (List String)) (map_header : List String)
      (good_sample_ids : List String) (irc : Bool) (n : Nat),
      1 ≤ n → n ≤ map_header.length - 2 →
      (∀ row ∈ map_data, row.length = map_header.length) →
      keptRows map_data good_sample_ids ≠ [] →
      setSize (colAt (keptRows map_data good_sample_ids) n) =
        (keptRows map_data good_sample_ids).length →
      filter_mapping_file map_data map_header good_sample_ids irc (some n) =
        .ok (fmfSpecRename map_data map_header good_sample_ids irc n) := by
  intro md mh good irc n hn1 hn2 hrect hkept huniq
  obtain ⟨n', hn'⟩ : ∃ n', n = n' + 1 := ⟨n - 1, by omega⟩
  subst hn'
  obtain ⟨m', hm'⟩ : ∃ m', mh.length = m' + 2 := ⟨mh.length - 2, by omega⟩
  obtain ⟨k, hk⟩ : ∃ k, m' = n' + 1 + k := ⟨m' - n' - 1, by omega⟩
  have hrectk : ∀ r ∈ keptRows md good, r.length = mh.length :=
    fun r hr => hrect r (List.mem_of_mem_filter hr)
  have hz : pyZip (keptRows md good) =
      colAt (keptRows md good) 0 ::
        (List.range' 1 (m' + 1)).map (fun j => colAt (keptRows md good) j) := by
    rw [pyZip_of_rect _ mh.length hrectk hkept, hm', List.range_eq_range',
      List.range'_succ, List.map_cons, Nat.zero_add]
  have hsplit : (List.range' 1 (m' + 1)).map (fun j => colAt (keptRows md good) j) =
      (List.range' 1 m').map (fun j => colAt (keptRows md good) j) ++
        [colAt (keptRows md good) (m' + 1)] := by
    rw [List.range'_1_concat, List.map_append, Nat.add_comm 1 m']
    rfl
  have hdrop : ((List.range' 1 (m' + 1)).map
      (fun j => colAt (keptRows md good) j)).dropLast =
      (List.range' 1 m').map (fun j => colAt (keptRows md good) j) := by
    rw [hsplit, List.dropLast_concat]
  have hlast : ((List.range' 1 (m' + 1)).map
      (fun j => colAt (keptRows md good) j)).getLastD
        (colAt (keptRows md good) 0) = colAt (keptRows md good) (m' + 1) := by
    rw [hsplit, List.getLastD_concat]
  have hint : (List.range' 1 m').map (fun j => colAt (keptRows md good) j) =
      ((List.range' 1 n').map (fun j => colAt (keptRows md good) j)) ++
        (colAt (keptRows md good) (n' + 1) ::
          (List.range' (n' + 1 + 1) k).map (fun j => colAt (keptRows md good) j)) := by
    have hranges := List.range'_append_1 1 n' (k + 1)
    rw [show (k + 1) + n' = n' + 1 + k from by omega] at hranges
    rw [hk, ← hranges, List.map_append, List.range'_succ, List.map_cons,
      show 1 + n' = n' + 1 from by omega]
  have hcri : (if n' + 1 = 0 then (none : Option Nat) else some (n' + 1 - 1)) =
      some n' := by
    simp
  have hpre := fmfLoop_skip mh irc (some n') (fun j => colAt (keptRows md good) j)
    n' 0 [mh.getD 0 ""] [] (colAt (keptRows md good) 0)
    (fun p _ hp2 hq => absurd (Option.some_inj.mp hq) (by omega))
  rw [Nat.zero_add] at hpre
  have happ := fmfLoop_append_ok mh irc (some n')
    ((List.range' 1 n').map (fun j => colAt (keptRows md good) j)) 0
    [mh.getD 0 ""] _ [] _ (colAt (keptRows md good) 0) _
    (colAt (keptRows md good) (n' + 1) ::
      (List.range' (n' + 1 + 1) k).map (fun j => colAt (keptRows md good) j)) hpre
  simp only [List.length_map, List.length_range', Nat.zero_add] at happ
  have hcond : ¬ (setSize (colAt (keptRows md good) (n' + 1)) ≠
      (colAt (keptRows md good) 0).length) := by
    rw [colAt_length]
    exact not_not_intro huniq
  have hpost := fmfLoop_skip mh irc (some n') (fun j => colAt (keptRows md good) j)
    k (n' + 1)
    ([mh.getD 0 ""] ++ ((List.range' 1 n').filter
      (fun j => irc || setSize (colAt (keptRows md good) j) > 1)).map
        (fun j => mh.getD j "") ++
      ["SampleID_was_" ++ mh.getD (n' + 1) ""])
    (([] ++ ((List.range' 1 n').filter
      (fun j => irc || setSize (colAt (keptRows md good) j) > 1)).map
        (fun j => colAt (keptRows md good) j)) ++
      [colAt (keptRows md good) 0])
    (colAt (keptRows md good) (n' + 1))
    (fun p hp1 _ hq => absurd (Option.some_inj.mp hq) (by omega))
  have hstep : fmfLoop mh irc (some n') n'
      (colAt (keptRows md good) (n' + 1) ::
        (List.range' (n' + 1 + 1) k).map (fun j => colAt (keptRows md good) j))
      ([mh.getD 0 ""] ++ ((List.range' 1 n').filter
        (fun j => irc || setSize (colAt (keptRows md good) j) > 1)).map
          (fun j => mh.getD j ""))
      ([] ++ ((List.range' 1 n').filter
        (fun j => irc || setSize (colAt (keptRows md good) j) > 1)).map
          (fun j => colAt (keptRows md good) j))
      (colAt (keptRows md good) 0) =
      .ok (([mh.getD 0 ""] ++ ((List.range' 1 n').filter
          (fun j => irc || setSize (colAt (keptRows md good) j) > 1)).map
            (fun j => mh.getD j "") ++
          ["SampleID_was_" ++ mh.getD (n' + 1) ""]) ++
          ((List.range' (n' + 1 + 1) k).filter
            (fun j => irc || setSize (colAt (keptRows md good) j) > 1)).map
              (fun j => mh.getD j ""),
        (([] ++ ((List.range' 1 n').filter
          (fun j => irc || setSize (colAt (keptRows md good) j) > 1)).map
            (fun j => colAt (keptRows md good) j)) ++
          [colAt (keptRows md good) 0]) ++
          ((List.range' (n' + 1 + 1) k).filter
            (fun j => irc || setSize (colAt (keptRows md good) j) > 1)).map
              (fun j => colAt (keptRows md good) j),
        colAt (keptRows md good) (n' + 1)) := by
    simp only [fmfLoop, if_pos rfl, if_neg hcond]
    exact hpost
  unfold filter_mapping_file
  rw [hz]
  simp only [hdrop, hlast, hcri, hint, happ, hstep]
  simp only [List.nil_append, List.singleton_append, List.cons_append,
    List.append_assoc]
  have hjs : colAt (keptRows md good) (n' + 1) ::
      (List.map (fun j => colAt (keptRows md good) j)
        (List.filter (fun j => irc || decide (setSize (colAt (keptRows md good) j) > 1))
          (List.range' 1 n')) ++
      colAt (keptRows md good) 0 ::
      (List.map (fun j => colAt (keptRows md good) j)
        (List.filter (fun j => irc || decide (setSize (colAt (keptRows md good) j) > 1))
          (List.range' (n' + 1 + 1) k)) ++
      [colAt (keptRows md good) (m' + 1)])) =
      List.map (fun j => colAt (keptRows md good) j)
        ((n' + 1) ::
          List.filter (fun j => irc || decide (setSize (colAt (keptRows md good) j) > 1))
            (List.range' 1 n') ++
          0 ::
          (List.filter (fun j => irc || decide (setSize (colAt (keptRows md good) j) > 1))
            (List.range' (n' + 1 + 1) k) ++ [m' + 1])) := by
    simp
  rw [hjs, pyZip_cols_eq_rows _ _ (by simp)]
  have e3 : m' + 2 - 2 = m' := by omega
  have e4 : m' + 2 - 1 = m' + 1 := by omega
  have e5 : n' + 1 - 1 = n' := by omega
  have e6 : m' + 2 - 2 - (n' + 1) = k := by omega
  have e8 : m' - (n' + 1) = k := by omega
  simp only [fmfSpecRename, survivingIdx, hm', e3, e4, e5, e6, e8,
    getLastD_eq_getD_last, List.map_cons, List.map_append, List.map_nil,
    List.cons_append, List.nil_append, List.append_assoc]

/-- C5 witness: renaming by the all-distinct interior column `B` puts its
values first, keeps the old identifiers in `B`'s slot, and labels that slot
with the designated column's original header name. -/
theorem claim_C5_witness :
    filter_mapping_file
      [["S1", "x", "p", "d1"], ["S2", "x", "q", "d2"], ["S3", "y", "r", "d3"]]
      ["SampleID", "A", "B", "Description"] ["S1", "S2"] false (some 2) =
      .ok (fmfSpecRename
        [["S1", "x", "p", "d1"], ["S2", "x", "q", "d2"], ["S3", "y", "r", "d3"]]
        ["SampleID", "A", "B", "Description"] ["S1", "S2"] false 2) ∧
    fmfSpecRename
      [["S1", "x", "p", "d1"], ["S2", "x", "q", "d2"], ["S3", "y", "r", "d3"]]
      ["SampleID", "A", "B", "Description"] ["S1", "S2"] false 2 =
      (["SampleID", "SampleID_was_B", "Description"],
        [["p", "S1", "d1"], ["q", "S2", "d2"]]) :=
  ⟨claim_C5
     [["S1", "x", "p", "d1"], ["S2", "x", "q", "d2"], ["S3", "y", "r", "d3"]]
     ["SampleID", "A", "B", "Description"] ["S1", "S2"] false 2
     (by decide) (by decide) (by decide) (by decide) (by decide), by decide⟩

/-- C9: if `good_sample_ids` retains no row, `filter_mapping_file` fails
(Python's `result = [to_keep[0]]` raises `IndexError`) instead of returning
an empty table; at least one retained row is a precondition for it to
return at all. -/
theorem claim_C9 :
    ∀ (map_data : List (List String)) (map_header : List String)
      (good_sample_ids : List String) (irc : Bool) (cri : Option Nat),
      (keptRows map_data good_sample_ids = [] →
        filter_mapping_file map_data map_header good_sample_ids irc cri =
          .error "list index out of range") ∧
      (∀ out, filter_mapping_file map_data map_header good_sample_ids irc cri =
          .ok out → keptRows map_data good_sample_ids ≠ []) := by
  intro md mh good irc cri
  have hnil : keptRows md good = [] →
      filter_mapping_file md mh good irc cri = .error "list index out of range" := by
    intro hk
    unfold filter_mapping_file
    rw [hk]
    rfl
  refine ⟨hnil, fun out hout hk => ?_⟩
  rw [hnil hk] at hout
  cases hout

/-- C9 witness: with no retained row the call fails with the index error,
and a successful call implies some row was retained. -/
theorem claim_C9_witness :
    filter_mapping_file [["S1", "d1"]] ["SampleID", "Description"] ["ZZ"] false none =
      .error "list index out of range" ∧
    keptRows [["S1", "d1"]] ["S1"] ≠ [] :=
  ⟨(claim_C9 [["S1", "d1"]] ["SampleID", "Description"] ["ZZ"] false none).1 rfl,
   (claim_C9 [["S1", "d1"]] ["SampleID", "Description"] ["S1"] false none).2
     (["SampleID", "Description"], [["S1", "d1"]]) rfl⟩

end QiimeFilter
